import Mathlib

/-!
Verification development for the perception-and-dispatch core of the
assistant backend: the screen-context sampler (`context_manager.py`), the
voice-command listener (`voice_processor.py`) and the multi-backend
language-model dispatcher (`llm_manager.py`).

The Python sources are shallowly embedded: pure computations become Lean
functions, the two background loops become explicit small-step transition
systems over state records with a program counter, exceptions become
`Except`/`Option`, and Python strings are modelled as Lean strings with
ASCII case folding (all string constants involved are ASCII).
-/

/-! ## Python string primitives

Models of the Python string operations the sources use: `str.lower`,
substring membership (`in`), `str.replace(pat, "")` and `str.strip()`.
-/

/-- Model of Python `str.lower()` for ASCII text: lower-case every character. -/
def pyLower (s : String) : String :=
  String.mk (s.data.map Char.toLower)

/-- Decides whether `pat` occurs as a contiguous substring of `l`,
matching Python `pat in s` (the empty pattern occurs in every string). -/
def hasSub : List Char → List Char → Bool
  | [], pat => pat.isEmpty
  | c :: rest, pat => pat.isPrefixOf (c :: rest) || hasSub rest pat

/-- Model of the Python membership test `pat in s` on strings. -/
def pyContains (s pat : String) : Bool :=
  hasSub s.data pat.data

/-- Characters removed by Python `str.strip()` with no argument. -/
def isPySpace (c : Char) : Bool :=
  c = ' ' || c = '\t' || c = '\n' || c = '\r' || c = '\x0b' || c = '\x0c'

/-- Model of Python `str.strip()`: drop leading and trailing whitespace. -/
def pyStripChars (s : List Char) : List Char :=
  ((s.dropWhile isPySpace).reverse.dropWhile isPySpace).reverse

/-- String-level wrapper of `pyStripChars`. -/
def pyStrip (s : String) : String :=
  String.mk (pyStripChars s.data)

/-! ## Wake phrase handling (`voice_processor.py`, `_continuous_listen`)

The listener tests `"hey assistant" in text.lower()` and then computes
`text.lower().replace("hey assistant", "").strip()`. Python `replace`
with no count removes every non-overlapping occurrence, scanning left to
right.
-/

/-- The configured wake phrase. -/
def wakePhrase : String := "hey assistant"

/-- Character list of the wake phrase. -/
def wakeChars : List Char := wakePhrase.data

/-- Fuel-indexed scan removing every left-to-right non-overlapping
occurrence of the wake phrase, the semantics of Python
`s.replace("hey assistant", "")`. Each recursive call shortens the list
by at least one character, so fuel equal to the list length (as supplied
by `removeAllWake`) never runs out. -/
def removeAllWakeAux : Nat → List Char → List Char
  | 0, l => l
  | _ + 1, [] => []
  | fuel + 1, c :: rest =>
    if wakeChars.isPrefixOf (c :: rest) then
      removeAllWakeAux fuel ((c :: rest).drop wakeChars.length)
    else
      c :: removeAllWakeAux fuel rest

/-- Model of `s.replace("hey assistant", "")` on the character list `s`. -/
def removeAllWake (l : List Char) : List Char :=
  removeAllWakeAux l.length l

/-- The command string the listener enqueues for a transcript `text`
containing the wake phrase:
`text.lower().replace("hey assistant", "").strip()`. -/
def wakeCommand (text : String) : String :=
  pyStrip (String.mk (removeAllWake (pyLower text).data))

/-- Modelled from the spec: the enqueued command as the claim states it —
the transcript with exactly ONE occurrence of the wake phrase removed
(matched case-insensitively) and surrounding whitespace trimmed. Kept as
a second definition only to be compared with the source-derived
`wakeCommand`. -/
def removeOneWakeCI : List Char → List Char
  | [] => []
  | c :: rest =>
    if wakeChars.isPrefixOf ((c :: rest).map Char.toLower) then
      (c :: rest).drop wakeChars.length
    else
      c :: removeOneWakeCI rest

/-- Modelled from the spec: trim the one-occurrence removal of the wake
phrase from the original transcript. -/
def specOneRemovalCommand (text : String) : String :=
  pyStrip (String.mk (removeOneWakeCI text.data))

/-! ## Voice listener transition system (`voice_processor.py`)

The continuous listening loop is modelled as a small-step machine.
`checkRun` is the point where the code tests `self.running` before
reading the next audio chunk (the inner `while self.running` guard; the
silence-timeout path closes the stream and falls back to the outer
`while self.running` guard, which is the same observable check, so both
map to `checkRun`). `haveChunk` is the point after a chunk was read and
appended, where the rolling window is transcribed and the wake phrase is
looked for. `closed` is the exit taken when a running check observes
`running = false`.
-/

/-- Program counter of the continuous listening loop. -/
inductive LisPC where
  | checkRun
  | haveChunk
  | closed
deriving DecidableEq, Repr

/-- State of the voice processor visible to the claims: the `running`
flag, the `terminated` flag of the audio library handle (set by `stop`),
the FIFO command queue (`queue.Queue` as a list, front = oldest), and the
rolling `frames` buffer of raw chunks (chunk payloads kept abstract as
strings). -/
structure LisState where
  running : Bool
  terminated : Bool
  queue : List String
  frames : List String
  pc : LisPC
deriving DecidableEq, Repr

/-- Environment input of one listener step: the chunk read from the
stream and the result of `recognizer.recognize_google` on the rolling
window (`none` models `UnknownValueError` / `RequestError`). -/
structure LisInput where
  chunk : String
  transcript : Option String
deriving DecidableEq, Repr

/-- One small step of `_continuous_listen`. At `checkRun` the loop
either reads a chunk (running) or exits (stopped). At `haveChunk` it
transcribes; a transcript that is non-empty and contains the wake phrase
enqueues the stripped command and resets the buffer, anything else
leaves the queue alone. -/
def lisStep (s : LisState) (inp : LisInput) : LisState :=
  match s.pc with
  | .checkRun =>
    if s.running then
      { s with frames := s.frames ++ [inp.chunk], pc := .haveChunk }
    else
      { s with pc := .closed }
  | .haveChunk =>
    match inp.transcript with
    | some text =>
      if text ≠ "" ∧ pyContains (pyLower text) wakePhrase then
        { s with queue := s.queue ++ [wakeCommand text],
                 frames := [], pc := .checkRun }
      else
        { s with pc := .checkRun }
    | none => { s with pc := .checkRun }
  | .closed => s

/-- Model of `VoiceProcessor.stop`: set `running` to false and terminate
the audio handle. Returns immediately, whatever the loop is doing. -/
def VoiceProcessor.stop (s : LisState) : LisState :=
  { s with running := false, terminated := true }

/-- Model of `queue.Queue.put`: append at the back. -/
def queuePut (q : List String) (x : String) : List String :=
  q ++ [x]

/-- Model of `VoiceProcessor.get_command`: `get_nowait` returning the
oldest entry and the remaining queue, or `none` on an empty queue
(the `queue.Empty` branch). -/
def VoiceProcessor.get_command (q : List String) : Option String × List String :=
  match q with
  | [] => (none, [])
  | x :: xs => (some x, xs)

/-! ## Language-model dispatcher (`llm_manager.py`)

`LLMManager.query` is embedded as a function of the backend behaviours:
each configured client is a function from the role-tagged message list to
the outcome of its single attempt — a successful string, a raised error
(the `Exception` branch), or an `asyncio.TimeoutError` from the
`asyncio.wait_for` bound (the per-attempt timeout). Besides the result
the embedding returns how many backends were invoked, so that
short-circuiting is observable.
-/

/-- A role-tagged chat message, one entry of the Python `messages` list. -/
structure Message where
  role : String
  content : String
deriving DecidableEq, Repr

/-- Outcome of a single bounded backend attempt:
success, a backend-raised error, or expiry of the per-attempt timeout. -/
inductive AttemptOutcome where
  | ok (s : String)
  | err (e : String)
  | timeout
deriving DecidableEq, Repr

/-- Whether an attempt outcome is a success. -/
def AttemptOutcome.isOk : AttemptOutcome → Bool
  | .ok _ => true
  | _ => false

/-- Result of one dispatch call. `success` carries the returned text;
`noBackendsConfigured` models `raise Exception("No LLM clients configured")`
and `allBackendsFailed` models `raise Exception("All LLM clients failed")` —
distinct exceptions with distinct messages, hence distinct constructors. -/
inductive QueryResult where
  | success (s : String)
  | noBackendsConfigured
  | allBackendsFailed
deriving DecidableEq, Repr

/-- One configured backend: its query capability on a message list,
yielding the outcome of the attempt already bounded by the timeout. -/
def Backend : Type := List Message → AttemptOutcome

/-- The message list `LLMManager.query` builds: the context dict
serialized into one system-role message (one `key: value` line per
entry, in dict order) followed by the user-role command. -/
def buildMessages (command : String) (context : List (String × String)) : List Message :=
  let contextStr := String.intercalate "\n" (context.map (fun kv => kv.1 ++ ": " ++ kv.2))
  [⟨"system", "Current context:\n" ++ contextStr⟩, ⟨"user", command⟩]

/-- The `for client in self.clients` loop: try each backend in list
order on the fixed message list; return at the first success; fall
through to `allBackendsFailed` when the list is exhausted. The second
component counts the backends actually invoked. -/
def runClients : List Backend → List Message → QueryResult × Nat
  | [], _ => (.allBackendsFailed, 0)
  | c :: rest, ms =>
    match c ms with
    | .ok s => (.success s, 1)
    | _ =>
      let r := runClients rest ms
      (r.1, r.2 + 1)

/-- Model of `LLMManager.query`: reject an empty client list before any
message construction or backend call, otherwise build the messages and
run the ordered fallback loop. -/
def LLMManager.query (clients : List Backend) (command : String)
    (context : List (String × String)) : QueryResult × Nat :=
  if clients.isEmpty then (.noBackendsConfigured, 0)
  else runClients clients (buildMessages command context)

/-! ## Gemini request construction (`GeminiClient.query`)

The outbound JSON body is
`{"contents": [{"parts": [{"text": messages[-1]["content"]}]}]}`;
`messages[-1]` fails on an empty list, hence the `Option`.
-/

/-- One element of the `parts` array of the Gemini request body. -/
structure GeminiPart where
  text : String
deriving DecidableEq, Repr

/-- One element of the `contents` array of the Gemini request body. -/
structure GeminiContent where
  parts : List GeminiPart
deriving DecidableEq, Repr

/-- The JSON body `GeminiClient.query` posts. -/
structure GeminiBody where
  contents : List GeminiContent
deriving DecidableEq, Repr

/-- The request body `GeminiClient.query` constructs from its message
list: only the content of the last message is used. -/
def GeminiClient.requestBody (messages : List Message) : Option GeminiBody :=
  match messages.getLast? with
  | none => none
  | some m => some ⟨[⟨[⟨m.content⟩]⟩]⟩

/-! ## Screen-context sampler (`context_manager.py`)

Frames are grayscale rasters, modelled as flat lists of pixel values
(`uint8`, so natural numbers below 256). The change metric is
`np.mean((new_img.astype(np.int16) - old_img.astype(np.int16)) ** 2)`:
the pixelwise subtraction is exact in int16 (differences stay within
±255), but the squaring ALSO happens in int16, so NumPy wraps the square
modulo 2^16 whenever the absolute difference is at least 182 (for
example 255 squared, 65025, wraps to −511). The embedding therefore
wraps each square to the int16 range before summing. Comparing the mean
of those wrapped integer squares with the integer threshold is the
integer comparison `wrapped sum > threshold * pixel count` (the float64
mean of integers of this magnitude cannot flip that comparison for real
screen sizes).
-/

/-- A captured grayscale frame: the flat list of pixel values. -/
abbrev Frame : Type := List Nat

/-- Wrap an integer into the int16 range, the overflow semantics of
NumPy int16 arithmetic. -/
def toInt16 (x : Int) : Int :=
  (x + 32768) % 65536 - 32768

/-- Sum of the int16-wrapped squared pixelwise differences of two
equal-length frames: the numerator of the `mse` the program computes.
Each difference is exact in int16, each square is wrapped modulo 2^16
exactly as the int16 `** 2` does (255 squared becomes −511). -/
def sqDiffSum (a b : Frame) : Int :=
  ((List.zip a b).map
    (fun p => toInt16 (((p.1 : Int) - (p.2 : Int)) * ((p.1 : Int) - (p.2 : Int))))).sum

/-- The exact (unwrapped) sum of squared pixel differences — the
numerator of the mathematical mean-squared difference. Not what the
program computes; kept only to relate the program-computed wrapped
metric `sqDiffSum` to the mathematical reading of the claim. -/
def exactSqDiffSum (a b : Frame) : Int :=
  ((List.zip a b).map
    (fun p => ((p.1 : Int) - (p.2 : Int)) * ((p.1 : Int) - (p.2 : Int)))).sum

/-- Model of `ContextManager.is_screen_changed`: with no baseline the
frame counts as changed; otherwise the screen counts as changed iff the
mean of the int16-wrapped squares exceeds the threshold, i.e. iff the
wrapped squared-difference sum exceeds `threshold * number of pixels`. -/
def is_screen_changed (newImg : Frame) (oldImg : Option Frame) (threshold : Nat := 100) : Bool :=
  match oldImg with
  | none => true
  | some o => sqDiffSum newImg o > (threshold : Int) * (List.length newImg : Int)

/-- Model of `ContextManager.extract_text`: the OCR call either yields a
text or raises; a raise is caught and mapped to the `"OCR failed"`
marker, a falsy (empty) text maps to `"No text detected"`, otherwise the
stripped text is returned. Total by construction: no error propagates. -/
def extract_text (ocr : Except String String) : String :=
  match ocr with
  | .error _ => "OCR failed"
  | .ok text => if text = "" then "No text detected" else pyStrip text

/-- Model of `ContextManager.is_youtube_video`. -/
def is_youtube_video (screenContent activeApp : String) : Bool :=
  pyContains (pyLower activeApp) "chrome" && pyContains (pyLower screenContent) "youtube.com/watch"

/-- Model of `ContextManager.is_pdf_open`. -/
def is_pdf_open (screenContent activeApp : String) : Bool :=
  pyContains (pyLower activeApp) "adobe acrobat" ||
    (pyContains (pyLower screenContent) ".pdf" && pyContains (pyLower activeApp) "chrome")

/-- Model of `ContextManager.is_email_open`. -/
def is_email_open (_screenContent activeApp : String) : Bool :=
  pyContains (pyLower activeApp) "gmail" || pyContains (pyLower activeApp) "outlook"

/-- The context snapshot dict the monitor publishes (fixed keys). -/
structure ContextSnapshot where
  active_app : String
  screen_content : String
  is_youtube : Bool
  is_pdf : Bool
  is_email : Bool
deriving DecidableEq, Repr

/-- The dict assigned to `self.context` on a changed screen, built from
the extracted text and the active application. -/
def buildContext (text activeApp : String) : ContextSnapshot :=
  ⟨activeApp, text, is_youtube_video text activeApp,
    is_pdf_open text activeApp, is_email_open text activeApp⟩

/-! ### Monitor transition system

`_continuous_monitor` as a small-step machine. `head` is the
`while self.running` check; one step from `head` also performs the
capture (storing the captured frame, or `none` on capture failure).
`body` is the locked section: change detection, extraction and
publication on the captured frame. `done` is the thread having exited.
The Bool returned by a step records whether that step called
`extract_text` (an OCR invocation).
-/

/-- Program counter of the monitor loop. -/
inductive MonPC where
  | head
  | body
  | done
deriving DecidableEq, Repr

/-- State of the context manager: the cooperative `running` flag, the
published `context` dict (`none` = still the initial empty dict), the
baseline frame `last_gray_img`, the frame captured in the current cycle,
and the loop program counter. -/
structure MonState where
  running : Bool
  context : Option ContextSnapshot
  last_gray_img : Option Frame
  cur : Option Frame
  pc : MonPC
deriving DecidableEq, Repr

/-- Environment input of one monitor step: the capture result (`none` is
a capture failure), the raw OCR outcome on the preprocessed frame, and
the active application reported by window introspection. -/
structure MonInput where
  frame : Option Frame
  ocr : Except String String
  active_app : String
deriving Repr

/-- One small step of `_continuous_monitor`. At `head`, exit if stopped,
else capture. At `body`, skip on capture failure; otherwise extract and
publish exactly when `is_screen_changed` holds (default threshold 100),
updating the baseline to the current frame. The Bool flags an
`extract_text` call. -/
def monStep (s : MonState) (inp : MonInput) : MonState × Bool :=
  match s.pc with
  | .head =>
    if s.running then ({ s with cur := inp.frame, pc := .body }, false)
    else ({ s with pc := .done }, false)
  | .body =>
    match s.cur with
    | none => ({ s with pc := .head }, false)
    | some f =>
      if is_screen_changed f s.last_gray_img then
        let text := extract_text inp.ocr
        ({ s with context := some (buildContext text inp.active_app),
                  last_gray_img := some f, pc := .head }, true)
      else
        ({ s with pc := .head }, false)
  | .done => (s, false)

/-- Model of `ContextManager.stop`: set `running := False` and return
immediately, whatever the loop is doing. -/
def ContextManager.stop (s : MonState) : MonState :=
  { s with running := false }

/-! ### Heap model for `get_context`

`get_context` returns `self.context.copy() if self.context else {}` — a
fresh dict object either way. To express freshness (the caller mutating
the returned dict cannot affect the manager), dict objects live in an
explicit heap of dict cells addressed by allocation index; `get_context`
allocates a new cell holding the current value and hands back its
address.
-/

/-- A Python dict value for the context: `none` is the empty dict. -/
abbrev PyDict : Type := Option ContextSnapshot

/-- A heap of dict objects, addressed by list index. -/
abbrev Heap : Type := List PyDict

/-- Read a heap cell (reading an unallocated address yields the empty dict;
all addresses used below are allocated). -/
def heapGet (h : Heap) (r : Nat) : PyDict :=
  h.getD r none

/-- Overwrite a heap cell in place, the effect of a caller mutating a dict
object it holds a reference to. -/
def heapSet (h : Heap) (r : Nat) (v : PyDict) : Heap :=
  h.set r v

/-- The context manager as a heap client: the heap and the address of the
dict `self.context` refers to. -/
structure CMHeapState where
  heap : Heap
  contextRef : Nat

/-- Model of `ContextManager.get_context`: read the current context dict
and return a freshly allocated copy (`self.context.copy()`; the falsy
branch returns a fresh `{}`, which is also the copy of the empty dict).
The returned address is the new cell. -/
def ContextManager.get_context (st : CMHeapState) : Nat × CMHeapState :=
  (st.heap.length, ⟨st.heap ++ [heapGet st.heap st.contextRef], st.contextRef⟩)

/-! ## Theorems -/

/-- C4: with an empty backend list, `LLMManager.query` returns the
configuration failure `noBackendsConfigured` after invoking zero
backends, and that failure is distinct from `allBackendsFailed` and from
every success result. -/
theorem C4_empty_backend_list_is_config_error (command : String)
    (context : List (String × String)) :
    LLMManager.query [] command context = (QueryResult.noBackendsConfigured, 0) ∧
    QueryResult.noBackendsConfigured ≠ QueryResult.allBackendsFailed ∧
    ∀ s : String, QueryResult.noBackendsConfigured ≠ QueryResult.success s := by
  refine ⟨rfl, by decide, fun s h => by cases h⟩

/-- Witness for C4 at a concrete command and context. -/
theorem C4_empty_backend_list_is_config_error_witness :
    LLMManager.query [] "cmd" [("k", "v")] = (QueryResult.noBackendsConfigured, 0) :=
  (C4_empty_backend_list_is_config_error "cmd" [("k", "v")]).1

/-- C7: the voice-command queue is FIFO with a non-blocking pop — after
enqueuing "a" then "b" the pops yield "a", then "b", then the empty
result; in general `get_command` returns the oldest entry (the list
head) or `none` on an empty queue, never blocking or raising. -/
theorem C7_command_queue_fifo_nonblocking :
    ((VoiceProcessor.get_command (queuePut (queuePut [] "a") "b")).1 = some "a" ∧
     (VoiceProcessor.get_command
       (VoiceProcessor.get_command (queuePut (queuePut [] "a") "b")).2).1 = some "b" ∧
     (VoiceProcessor.get_command
       (VoiceProcessor.get_command
         (VoiceProcessor.get_command (queuePut (queuePut [] "a") "b")).2).2).1 = none) ∧
    ∀ q : List String, (VoiceProcessor.get_command q).1 = q.head? ∧
      (VoiceProcessor.get_command q).2 = q.tail := by
  refine ⟨⟨rfl, rfl, rfl⟩, fun q => ?_⟩
  cases q <;> exact ⟨rfl, rfl⟩

/-- C8: `extract_text` is total and maps every failed OCR call to the
explicit `"OCR failed"` marker instead of propagating the error; in
particular a monitor step whose OCR input is a failure still completes
and publishes the marker text, so extraction failure cannot crash the
sampling loop. -/
theorem C8_extraction_failure_never_propagates :
    (∀ e : String, extract_text (Except.error e) = "OCR failed") ∧
    (∀ (s : MonState) (fr : Option Frame) (e app : String) (f : Frame),
      s.pc = MonPC.body → s.cur = some f →
      is_screen_changed f s.last_gray_img = true →
      (monStep s ⟨fr, Except.error e, app⟩).1.context
        = some (buildContext "OCR failed" app)) := by
  refine ⟨fun e => rfl, fun s fr e app f hpc hcur hch => ?_⟩
  obtain ⟨run, ctx, last, cur, pc⟩ := s
  simp only at hpc hcur
  subst hpc hcur
  simp [monStep, hch, extract_text]

/-- Witness for C8 at a concrete mid-cycle state with a failing OCR call. -/
theorem C8_extraction_failure_never_propagates_witness :
    (monStep ⟨true, none, none, some [200], MonPC.body⟩
        ⟨none, Except.error "boom", "app"⟩).1.context
      = some (buildContext "OCR failed" "app") :=
  C8_extraction_failure_never_propagates.2
    ⟨true, none, none, some [200], MonPC.body⟩ none "boom" "app" [200] rfl rfl (by decide)

/-- C9: with no baseline frame the change check always reports a change,
so a monitor step on the first-ever captured frame performs extraction,
publishes the freshly built snapshot and installs the frame as the new
baseline. -/
theorem C9_first_frame_always_changed :
    (∀ (f : Frame) (t : Nat), is_screen_changed f none t = true) ∧
    (∀ (s : MonState) (inp : MonInput) (f : Frame),
      s.pc = MonPC.body → s.cur = some f → s.last_gray_img = none →
      (monStep s inp).2 = true ∧
      (monStep s inp).1.context
        = some (buildContext (extract_text inp.ocr) inp.active_app) ∧
      (monStep s inp).1.last_gray_img = some f) := by
  refine ⟨fun f t => rfl, fun s inp f hpc hcur hlast => ?_⟩
  obtain ⟨run, ctx, last, cur, pc⟩ := s
  simp only at hpc hcur hlast
  subst hpc hcur hlast
  simp [monStep, is_screen_changed]

/-- Witness for C9 on a concrete first frame. -/
theorem C9_first_frame_always_changed_witness :
    (monStep ⟨true, none, none, some [5], MonPC.body⟩
        ⟨none, Except.ok "hi", "app"⟩).2 = true ∧
    (monStep ⟨true, none, none, some [5], MonPC.body⟩
        ⟨none, Except.ok "hi", "app"⟩).1.context
      = some (buildContext (extract_text (Except.ok "hi")) "app") ∧
    (monStep ⟨true, none, none, some [5], MonPC.body⟩
        ⟨none, Except.ok "hi", "app"⟩).1.last_gray_img = some [5] :=
  C9_first_frame_always_changed.2 ⟨true, none, none, some [5], MonPC.body⟩
    ⟨none, Except.ok "hi", "app"⟩ [5] rfl rfl rfl

/-- C6: the Gemini request body depends only on the content of the last
message — two message lists whose last elements have equal content yield
identical bodies — and in particular the body built from the dispatcher
message list for a fixed command is the same for any two context dicts:
the prepended system-role context message never reaches the Gemini
backend. -/
theorem C6_gemini_body_depends_only_on_last_content :
    (∀ (ms1 ms2 : List Message) (m1 m2 : Message),
      ms1.getLast? = some m1 → ms2.getLast? = some m2 →
      m1.content = m2.content →
      GeminiClient.requestBody ms1 = GeminiClient.requestBody ms2) ∧
    (∀ (command : String) (ctx1 ctx2 : List (String × String)),
      GeminiClient.requestBody (buildMessages command ctx1)
        = GeminiClient.requestBody (buildMessages command ctx2)) := by
  constructor
  · intro ms1 ms2 m1 m2 h1 h2 hc
    simp [GeminiClient.requestBody, h1, h2, hc]
  · intro command ctx1 ctx2
    rfl

/-- Witness for C6: a two-message list with a system message and the
bare user message produce the same Gemini body. -/
theorem C6_gemini_body_depends_only_on_last_content_witness :
    GeminiClient.requestBody [⟨"system", "secret ctx"⟩, ⟨"user", "q"⟩]
      = GeminiClient.requestBody [⟨"user", "q"⟩] :=
  C6_gemini_body_depends_only_on_last_content.1
    [⟨"system", "secret ctx"⟩, ⟨"user", "q"⟩] [⟨"user", "q"⟩]
    ⟨"user", "q"⟩ ⟨"user", "q"⟩ rfl rfl rfl

/-- Helper: wrapping to int16 never increases a nonnegative integer. -/
theorem toInt16_le_self (x : Int) (hx : 0 ≤ x) : toInt16 x ≤ x := by
  unfold toInt16
  omega

/-- Helper: the program-computed wrapped squared-difference sum is
bounded by the exact one, so a frame below the threshold in the
mathematical metric is also below it in the program metric. -/
theorem sqDiffSum_le_exactSqDiffSum (a b : Frame) :
    sqDiffSum a b ≤ exactSqDiffSum a b := by
  unfold sqDiffSum exactSqDiffSum
  exact List.sum_le_sum fun p _ => toInt16_le_self _ (mul_self_nonneg _)

/-- C5: a monitor step on a captured frame whose change metric against
the existing baseline stays below the threshold — the int16-wrapped
squared-difference sum, exactly what the program averages, strictly
below `100 * pixel count` — makes no extraction call and leaves both the
published snapshot and the baseline unchanged. The final conjunct
relates this to the mathematical reading of "mean-squared difference
below 100": the wrapped sum never exceeds the exact sum, so a frame
whose exact mean-squared difference is below the threshold satisfies
the hypothesis as well. -/
theorem C5_unchanged_frame_skips_extraction (s : MonState) (inp : MonInput)
    (f g : Frame) (hpc : s.pc = MonPC.body) (hcur : s.cur = some f)
    (hlast : s.last_gray_img = some g)
    (hbelow : sqDiffSum f g < 100 * (List.length f : Int)) :
    ((monStep s inp).2 = false ∧
     (monStep s inp).1.context = s.context ∧
     (monStep s inp).1.last_gray_img = s.last_gray_img) ∧
    (exactSqDiffSum f g < 100 * (List.length f : Int) →
      sqDiffSum f g < 100 * (List.length f : Int)) := by
  obtain ⟨run, ctx, last, cur, pc⟩ := s
  simp only at hpc hcur hlast
  subst hpc hcur hlast
  have hch : is_screen_changed f (some g) = false := by
    simp only [is_screen_changed, decide_eq_false_iff_not, not_lt]
    omega
  refine ⟨by simp [monStep, hch], fun hexact => ?_⟩
  exact lt_of_le_of_lt (sqDiffSum_le_exactSqDiffSum f g) hexact

/-- Witness for C5 on one-pixel frames whose wrapped difference sum (25)
is below the threshold. -/
theorem C5_unchanged_frame_skips_extraction_witness :
    (monStep ⟨true, none, some [2], some [7], MonPC.body⟩
        ⟨none, Except.ok "hi", "app"⟩).2 = false ∧
    (monStep ⟨true, none, some [2], some [7], MonPC.body⟩
        ⟨none, Except.ok "hi", "app"⟩).1.context
      = (⟨true, none, some [2], some [7], MonPC.body⟩ : MonState).context ∧
    (monStep ⟨true, none, some [2], some [7], MonPC.body⟩
        ⟨none, Except.ok "hi", "app"⟩).1.last_gray_img
      = (⟨true, none, some [2], some [7], MonPC.body⟩ : MonState).last_gray_img :=
  (C5_unchanged_frame_skips_extraction ⟨true, none, some [2], some [7], MonPC.body⟩
    ⟨none, Except.ok "hi", "app"⟩ [7] [2] rfl rfl rfl (by decide)).1

/-- Helper: when every backend attempt fails, the fallback loop exhausts
the whole list and reports `allBackendsFailed`, invoking each backend. -/
theorem runClients_all_fail (ms : List Message) :
    ∀ clients : List Backend,
      (∀ c ∈ clients, (c ms).isOk = false) →
      runClients clients ms = (QueryResult.allBackendsFailed, clients.length) := by
  intro clients
  induction clients with
  | nil => intro _; rfl
  | cons c rest ih =>
    intro hall
    have hc : (c ms).isOk = false := hall c (List.mem_cons_self c rest)
    have hrest := ih (fun b hb => hall b (List.mem_cons_of_mem c hb))
    cases hco : c ms with
    | ok s => rw [hco] at hc; cases hc
    | err e => simp [runClients, hco, hrest]
    | timeout => simp [runClients, hco, hrest]

/-- Helper: when backend `i` is the first whose attempt succeeds, the
fallback loop returns its text and invokes exactly the first `i + 1`
backends. -/
theorem runClients_first_ok (ms : List Message) :
    ∀ (clients : List Backend) (i : Nat) (hi : i < clients.length) (s : String),
      (∀ (j : Nat) (hj : j < clients.length), j < i →
        ((clients.get ⟨j, hj⟩) ms).isOk = false) →
      (clients.get ⟨i, hi⟩) ms = AttemptOutcome.ok s →
      runClients clients ms = (QueryResult.success s, i + 1) := by
  intro clients
  induction clients with
  | nil => intro i hi; cases hi
  | cons c rest ih =>
    intro i hi s hfail hok
    cases i with
    | zero =>
      have : c ms = AttemptOutcome.ok s := hok
      simp [runClients, this]
    | succ i =>
      have hc : (c ms).isOk = false := hfail 0 (Nat.succ_pos _) (Nat.succ_pos _)
      have hrest := ih i (Nat.lt_of_succ_lt_succ hi) s
        (fun j hj hji =>
          hfail (j + 1) (Nat.succ_lt_succ hj) (Nat.succ_lt_succ hji))
        hok
      cases hco : c ms with
      | ok t => rw [hco] at hc; cases hc
      | err e => simp [runClients, hco, hrest]
      | timeout => simp [runClients, hco, hrest]

/-- C1: with a non-empty backend list the dispatcher tries the backends
one at a time in configuration order on the one built message list, each
attempt already bounded by the per-attempt timeout (a timed-out attempt
is the `timeout` outcome); if backend `i` is the first to succeed it
returns that result having invoked only backends `0..i`, and if every
backend errors or times out it returns `allBackendsFailed` having
invoked them all. -/
theorem C1_dispatcher_ordered_fallback (clients : List Backend) (command : String)
    (context : List (String × String)) (hne : clients ≠ []) :
    (∀ (i : Nat) (hi : i < clients.length) (s : String),
      (∀ (j : Nat) (hj : j < clients.length), j < i →
        ((clients.get ⟨j, hj⟩) (buildMessages command context)).isOk = false) →
      (clients.get ⟨i, hi⟩) (buildMessages command context) = AttemptOutcome.ok s →
      LLMManager.query clients command context = (QueryResult.success s, i + 1)) ∧
    ((∀ c ∈ clients, (c (buildMessages command context)).isOk = false) →
      LLMManager.query clients command context
        = (QueryResult.allBackendsFailed, clients.length)) := by
  have hemp : clients.isEmpty = false := by
    cases clients with
    | nil => exact absurd rfl hne
    | cons c rest => rfl
  constructor
  · intro i hi s hfail hok
    rw [LLMManager.query, hemp]
    simpa using runClients_first_ok (buildMessages command context) clients i hi s hfail hok
  · intro hall
    rw [LLMManager.query, hemp]
    simpa using runClients_all_fail (buildMessages command context) clients hall

/-- Witness for C1: first backend errors, second succeeds — the result
is the second backend text after two invocations. -/
theorem C1_dispatcher_ordered_fallback_witness :
    LLMManager.query
        [fun _ => AttemptOutcome.err "boom", fun _ => AttemptOutcome.ok "hi"]
        "cmd" []
      = (QueryResult.success "hi", 2) := by
  have h := C1_dispatcher_ordered_fallback
    [fun _ => AttemptOutcome.err "boom", fun _ => AttemptOutcome.ok "hi"]
    "cmd" [] (by simp)
  exact h.1 1 (by simp) "hi"
    (fun j hj hji => by
      have hj0 : j = 0 := by omega
      subst hj0
      rfl)
    rfl

/-- C2 counterexample: on the transcript
`"Hey Assistant hey assistant OPEN mail"` — which contains the wake
phrase — the listener enqueues `"open mail"` (the transcript is
lower-cased and BOTH occurrences of the phrase are removed by
`str.replace`), while the claim (exactly one occurrence removed from the
transcript, then trimmed) demands `"hey assistant OPEN mail"`. The claim
as stated is therefore false on the code. -/
theorem C2_wake_strip_counterexample :
    (lisStep ⟨true, false, [], [], LisPC.haveChunk⟩
        ⟨"c", some "Hey Assistant hey assistant OPEN mail"⟩).queue
      = ["open mail"] ∧
    specOneRemovalCommand "Hey Assistant hey assistant OPEN mail"
      = "hey assistant OPEN mail" ∧
    (lisStep ⟨true, false, [], [], LisPC.haveChunk⟩
        ⟨"c", some "Hey Assistant hey assistant OPEN mail"⟩).queue
      ≠ [specOneRemovalCommand "Hey Assistant hey assistant OPEN mail"] := by
  refine ⟨by decide, by decide, by decide⟩

/-- C2 amended: on a transcript step whose transcript is non-empty and
contains the wake phrase (case-insensitively), the enqueued command is
the LOWER-CASED transcript with EVERY left-to-right non-overlapping
occurrence of the wake phrase removed and surrounding whitespace
trimmed, and the rolling audio buffer is reset. -/
theorem C2_wake_strip_amended (s : LisState) (inp : LisInput) (text : String)
    (hpc : s.pc = LisPC.haveChunk) (ht : inp.transcript = some text)
    (hne : text ≠ "") (hwake : pyContains (pyLower text) wakePhrase = true) :
    (lisStep s inp).queue
      = s.queue ++ [pyStrip (String.mk (removeAllWake (pyLower text).data))] ∧
    (lisStep s inp).frames = [] := by
  obtain ⟨run, term, q, fr, pc⟩ := s
  simp only at hpc
  subst hpc
  simp [lisStep, ht, hne, hwake, wakeCommand]

/-- Witness for C2 amended on a concrete wake-phrase transcript. -/
theorem C2_wake_strip_amended_witness :
    (lisStep ⟨true, false, ["old"], ["f1"], LisPC.haveChunk⟩
        ⟨"c", some "hey assistant open chrome"⟩).queue
      = ["old"] ++ [pyStrip (String.mk (removeAllWake (pyLower "hey assistant open chrome").data))] ∧
    (lisStep ⟨true, false, ["old"], ["f1"], LisPC.haveChunk⟩
        ⟨"c", some "hey assistant open chrome"⟩).frames = [] :=
  C2_wake_strip_amended ⟨true, false, ["old"], ["f1"], LisPC.haveChunk⟩
    ⟨"c", some "hey assistant open chrome"⟩ "hey assistant open chrome"
    rfl rfl (by decide) (by decide)

/-- C3 counterexample: `stop()` only flips the cooperative flag and
returns at once, so a loop already past its running check can still
publish. Concretely, from a state where `running` is already false (a
`stop()` call has returned) but the monitor sits mid-cycle at the locked
body with a captured frame, the next step still mutates the published
snapshot — refuting "no further mutation of the published context
snapshot occurs after any stop() call returns, even mid-cycle". -/
theorem C3_stop_counterexample :
    (monStep ⟨false, none, none, some [200], MonPC.body⟩
        ⟨none, Except.ok "hello", "app"⟩).1.context
      ≠ (⟨false, none, none, some [200], MonPC.body⟩ : MonState).context := by
  decide

/-- C3 amended: `stop()` is idempotent on both background loops, and
after `stop()` no NEW cycle begins — a monitor running-check with the
flag down exits to the terminal state without touching the snapshot, a
listener running-check with the flag down exits to the closed state
without touching the queue, and the terminal states are absorbing with
no further mutation; only the single already-in-flight cycle may still
publish or enqueue once. -/
theorem C3_stop_idempotent_no_new_cycle :
    (∀ s : MonState, ContextManager.stop (ContextManager.stop s) = ContextManager.stop s) ∧
    (∀ s : LisState, VoiceProcessor.stop (VoiceProcessor.stop s) = VoiceProcessor.stop s) ∧
    (∀ (s : MonState) (inp : MonInput), s.running = false → s.pc = MonPC.head →
      (monStep s inp).1.context = s.context ∧
      (monStep s inp).1.pc = MonPC.done ∧ (monStep s inp).2 = false) ∧
    (∀ (s : MonState) (inp : MonInput), s.pc = MonPC.done → monStep s inp = (s, false)) ∧
    (∀ (s : LisState) (inp : LisInput), s.running = false → s.pc = LisPC.checkRun →
      (lisStep s inp).queue = s.queue ∧ (lisStep s inp).pc = LisPC.closed) ∧
    (∀ (s : LisState) (inp : LisInput), s.pc = LisPC.closed → lisStep s inp = s) := by
  refine ⟨fun s => rfl, fun s => rfl, ?_, ?_, ?_, ?_⟩
  · intro s inp hrun hpc
    obtain ⟨run, ctx, last, cur, pc⟩ := s
    simp only at hrun hpc
    subst hrun hpc
    simp [monStep]
  · intro s inp hpc
    obtain ⟨run, ctx, last, cur, pc⟩ := s
    simp only at hpc
    subst hpc
    rfl
  · intro s inp hrun hpc
    obtain ⟨run, term, q, fr, pc⟩ := s
    simp only at hrun hpc
    subst hrun hpc
    simp [lisStep]
  · intro s inp hpc
    obtain ⟨run, term, q, fr, pc⟩ := s
    simp only at hpc
    subst hpc
    rfl

/-- Witness for C3 amended: a stopped monitor at the cycle head exits
without publishing. -/
theorem C3_stop_idempotent_no_new_cycle_witness :
    (monStep ⟨false, none, none, none, MonPC.head⟩
        ⟨some [1], Except.ok "hi", "app"⟩).1.context
      = (⟨false, none, none, none, MonPC.head⟩ : MonState).context ∧
    (monStep ⟨false, none, none, none, MonPC.head⟩
        ⟨some [1], Except.ok "hi", "app"⟩).1.pc = MonPC.done ∧
    (monStep ⟨false, none, none, none, MonPC.head⟩
        ⟨some [1], Except.ok "hi", "app"⟩).2 = false :=
  C3_stop_idempotent_no_new_cycle.2.2.1 ⟨false, none, none, none, MonPC.head⟩
    ⟨some [1], Except.ok "hi", "app"⟩ rfl rfl

/-- Helper: writing one heap cell leaves every other cell unchanged. -/
theorem heapGet_heapSet_ne (v : PyDict) :
    ∀ (h : Heap) (r c : Nat), r ≠ c → heapGet (heapSet h r v) c = heapGet h c := by
  intro h
  induction h with
  | nil => intro r c _; cases r <;> rfl
  | cons a t ih =>
    intro r c hne
    cases r with
    | zero =>
      cases c with
      | zero => exact absurd rfl hne
      | succ c => rfl
    | succ r =>
      cases c with
      | zero => rfl
      | succ c =>
        simpa [heapGet, heapSet, List.getD_cons_succ] using
          ih r c (fun he => hne (by rw [he]))

/-- Helper: any sequence of writes to one fixed cell leaves every other
cell unchanged. -/
theorem heapGet_foldl_heapSet_ne (r c : Nat) (hne : r ≠ c) :
    ∀ (ms : List PyDict) (hp : Heap),
      heapGet (ms.foldl (fun h v => heapSet h r v) hp) c = heapGet hp c := by
  intro ms
  induction ms with
  | nil => intro hp; rfl
  | cons v vs ih =>
    intro hp
    calc heapGet ((v :: vs).foldl (fun h w => heapSet h r w) hp) c
        = heapGet (vs.foldl (fun h w => heapSet h r w) (heapSet hp r v)) c := rfl
      _ = heapGet (heapSet hp r v) c := ih (heapSet hp r v)
      _ = heapGet hp c := heapGet_heapSet_ne v hp r c hne

/-- Helper: reading a cell below the old length after appending one cell
sees the old value. -/
theorem heapGet_append_lt (v : PyDict) :
    ∀ (h : Heap) (c : Nat), c < h.length → heapGet (h ++ [v]) c = heapGet h c := by
  intro h
  induction h with
  | nil => intro c hc; cases hc
  | cons a t ih =>
    intro c hc
    cases c with
    | zero => rfl
    | succ c =>
      simpa [heapGet, List.getD_cons_succ] using ih c (Nat.lt_of_succ_lt_succ hc)

/-- Helper: the freshly appended cell holds the appended value. -/
theorem heapGet_append_self (v : PyDict) :
    ∀ h : Heap, heapGet (h ++ [v]) h.length = v := by
  intro h
  induction h with
  | nil => rfl
  | cons a t ih => simp [heapGet, List.getD_cons_succ]

/-- C10: `get_context` hands back a fresh copy — the returned address is
not the address the manager holds, any sequence of caller writes through
the returned address leaves the stored context untouched, and a
subsequent `get_context` call still delivers the original value. -/
theorem C10_get_context_returns_fresh_copy (st : CMHeapState)
    (halloc : st.contextRef < st.heap.length) (ms : List PyDict) :
    (ContextManager.get_context st).1 ≠ st.contextRef ∧
    heapGet
        (ms.foldl (fun h v => heapSet h (ContextManager.get_context st).1 v)
          (ContextManager.get_context st).2.heap)
        st.contextRef
      = heapGet st.heap st.contextRef ∧
    heapGet
        (ContextManager.get_context
          ⟨ms.foldl (fun h v => heapSet h (ContextManager.get_context st).1 v)
              (ContextManager.get_context st).2.heap,
            st.contextRef⟩).2.heap
        (ContextManager.get_context
          ⟨ms.foldl (fun h v => heapSet h (ContextManager.get_context st).1 v)
              (ContextManager.get_context st).2.heap,
            st.contextRef⟩).1
      = heapGet st.heap st.contextRef := by
  have hne : (ContextManager.get_context st).1 ≠ st.contextRef := by
    simp only [ContextManager.get_context]
    omega
  have hmut :
      heapGet
          (ms.foldl (fun h v => heapSet h (ContextManager.get_context st).1 v)
            (ContextManager.get_context st).2.heap)
          st.contextRef
        = heapGet st.heap st.contextRef := by
    rw [heapGet_foldl_heapSet_ne _ _ hne]
    exact heapGet_append_lt _ st.heap st.contextRef halloc
  refine ⟨hne, hmut, ?_⟩
  rw [ContextManager.get_context]
  simpa [heapGet_append_self] using hmut

/-- Witness for C10: one stored snapshot, one caller write clearing its
copy — the stored snapshot survives. -/
theorem C10_get_context_returns_fresh_copy_witness :
    (ContextManager.get_context ⟨[some (buildContext "t" "a")], 0⟩).1 ≠ 0 ∧
    heapGet
        ([(none : PyDict)].foldl
          (fun h v => heapSet h (ContextManager.get_context ⟨[some (buildContext "t" "a")], 0⟩).1 v)
          (ContextManager.get_context ⟨[some (buildContext "t" "a")], 0⟩).2.heap)
        0
      = heapGet [some (buildContext "t" "a")] 0 ∧
    heapGet
        (ContextManager.get_context
          ⟨[(none : PyDict)].foldl
              (fun h v => heapSet h (ContextManager.get_context ⟨[some (buildContext "t" "a")], 0⟩).1 v)
              (ContextManager.get_context ⟨[some (buildContext "t" "a")], 0⟩).2.heap,
            0⟩).2.heap
        (ContextManager.get_context
          ⟨[(none : PyDict)].foldl
              (fun h v => heapSet h (ContextManager.get_context ⟨[some (buildContext "t" "a")], 0⟩).1 v)
              (ContextManager.get_context ⟨[some (buildContext "t" "a")], 0⟩).2.heap,
            0⟩).1
      = heapGet [some (buildContext "t" "a")] 0 :=
  C10_get_context_returns_fresh_copy ⟨[some (buildContext "t" "a")], 0⟩
    (by decide) [(none : PyDict)]
